import Mathlib

/-!
Verification of the people-counting repository.

The repository counts people detected by an AI pipeline.  The callback in
`src/Vision/main.py` deduplicates detections by tracker-assigned id, keeps
per-minute/hour/day sets, and appends rows to a CSV file at minute
boundaries.  `src/API/api.py` reads that CSV back with an ad-hoc recovery
parser and serves aggregate statistics.  `src/web_dashboard/app.py` keeps a
bounded buffer of timelapse frames.

This file shallowly embeds those pieces: sets become `Finset ℕ`, epoch time
becomes `ℕ` seconds (Python's `int(t // 60)` is `t / 60` on `ℕ`),
detection confidence becomes `ℚ`, and the CSV file becomes the list of rows
appended to it.
-/

namespace PeopleCounter

/-- State of `user_app_callback_class` (src/Vision/main.py, `__init__`):
the lifetime counter `people_count`, the lifetime set `tracked_people`,
the three period sets, and the three current period indices.
(`last_log_time`, `last_debug_time` and the fixed CSV path only feed the
debug printout and file handling and are not modelled.) -/
structure CounterState where
  people_count : ℕ
  tracked_people : Finset ℕ
  current_minute_people : Finset ℕ
  current_hour_people : Finset ℕ
  current_day_people : Finset ℕ
  current_minute : ℕ
  current_hour : ℕ
  current_day : ℕ
deriving DecidableEq

/-- `user_app_callback_class.__init__` at epoch time `t`: zero count, empty
sets, and the period indices `int(time.time() // 60)` etc. -/
def init (t : ℕ) : CounterState :=
  { people_count := 0
    tracked_people := ∅
    current_minute_people := ∅
    current_hour_people := ∅
    current_day_people := ∅
    current_minute := t / 60
    current_hour := t / 3600
    current_day := t / 86400 }

/-- `user_app_callback_class.add_person` (src/Vision/main.py lines 197-221):
if the id is not yet in `tracked_people`, add it and bump `people_count`;
then add the id to all three period sets; return whether the id was new. -/
def add_person (s : CounterState) (track_id : ℕ) : CounterState × Bool :=
  let step1 :=
    if track_id ∉ s.tracked_people then
      ({ s with tracked_people := insert track_id s.tracked_people
                people_count := s.people_count + 1 }, true)
    else (s, false)
  ({ step1.1 with
      current_minute_people := insert track_id step1.1.current_minute_people
      current_hour_people := insert track_id step1.1.current_hour_people
      current_day_people := insert track_id step1.1.current_day_people },
   step1.2)

/-- Fold `add_person` over a sequence of track ids, keeping the state. -/
def addPersonFold (s : CounterState) (ids : List ℕ) : CounterState :=
  ids.foldl (fun s i => (add_person s i).1) s

theorem add_person_tracked (s : CounterState) (i : ℕ) :
    ((add_person s i).1).tracked_people = insert i s.tracked_people := by
  by_cases h : i ∈ s.tracked_people <;>
    simp [add_person, h, Finset.insert_eq_self]

theorem add_person_mem_sets (s : CounterState) (i : ℕ) :
    i ∈ ((add_person s i).1).current_minute_people ∧
    i ∈ ((add_person s i).1).current_hour_people ∧
    i ∈ ((add_person s i).1).current_day_people ∧
    i ∈ ((add_person s i).1).tracked_people := by
  refine ⟨?_, ?_, ?_, ?_⟩ <;>
    by_cases h : i ∈ s.tracked_people <;>
      simp [add_person, h]

theorem add_person_count (s : CounterState) (i : ℕ)
    (h : s.people_count = s.tracked_people.card) :
    ((add_person s i).1).people_count = (insert i s.tracked_people).card := by
  by_cases hm : i ∈ s.tracked_people
  · simp [add_person, hm, Finset.insert_eq_self.mpr hm, h]
  · simp [add_person, hm, Finset.card_insert_of_not_mem hm, h]

theorem addPersonFold_tracked (ids : List ℕ) (s : CounterState) :
    (addPersonFold s ids).tracked_people = s.tracked_people ∪ ids.toFinset := by
  induction ids generalizing s with
  | nil => simp [addPersonFold]
  | cons i rest ih =>
    have hstep : addPersonFold s (i :: rest) = addPersonFold (add_person s i).1 rest := rfl
    rw [hstep, ih, add_person_tracked]
    simp [Finset.insert_union, Finset.union_insert]

theorem addPersonFold_count (ids : List ℕ) (s : CounterState)
    (h : s.people_count = s.tracked_people.card) :
    (addPersonFold s ids).people_count = (s.tracked_people ∪ ids.toFinset).card := by
  induction ids generalizing s with
  | nil => simpa [addPersonFold] using h
  | cons i rest ih =>
    have hstep : addPersonFold s (i :: rest) = addPersonFold (add_person s i).1 rest := rfl
    have hcount : ((add_person s i).1).people_count =
        ((add_person s i).1).tracked_people.card := by
      rw [add_person_tracked, add_person_count s i h]
    rw [hstep, ih _ hcount, add_person_tracked]
    simp [Finset.insert_union, Finset.union_insert]

/-- C1: starting from a fresh `user_app_callback_class`, after any sequence
of `add_person` calls, `people_count` equals the number of distinct track
ids passed so far (each id counts toward the lifetime total exactly once,
no matter how often it is repeated), and `tracked_people` is exactly the
set of those ids. -/
theorem c1_people_count_distinct (t : ℕ) (ids : List ℕ) :
    (addPersonFold (init t) ids).people_count = ids.toFinset.card ∧
    (addPersonFold (init t) ids).tracked_people = ids.toFinset := by
  constructor
  · rw [addPersonFold_count ids (init t) (by simp [init])]
    simp [init]
  · rw [addPersonFold_tracked]
    simp [init]

/-- C3: `add_person` is idempotent: a second call with the same track id
returns `false` and leaves the whole state (count and all four sets)
exactly as after the first call. -/
theorem c3_add_person_idempotent (s : CounterState) (i : ℕ) :
    add_person (add_person s i).1 i = ((add_person s i).1, false) := by
  by_cases h : i ∈ s.tracked_people <;>
    simp [add_person, h, Finset.insert_idem]

/-- One row of `people_count_log.csv` (the human-readable timestamp string
is not modelled; the numeric columns are). -/
structure CsvRow where
  minute : ℕ
  hour : ℕ
  day : ℕ
  people_this_minute : ℕ
  people_this_hour : ℕ
  people_this_day : ℕ
  total_unique_people : ℕ
deriving DecidableEq

/-- `user_app_callback_class.log_to_csv` (src/Vision/main.py lines 146-179)
at epoch time `t`: the row written holds `int(t // 60)`, `int(t // 3600)`,
`int(t // 86400)` and the sizes of the four sets.  The `people_count`
argument is accepted but, as in the source, never placed in the row. -/
def log_to_csv (s : CounterState) (t : ℕ) (people_count : ℕ) : CsvRow :=
  { minute := t / 60
    hour := t / 3600
    day := t / 86400
    people_this_minute := s.current_minute_people.card
    people_this_hour := s.current_hour_people.card
    people_this_day := s.current_day_people.card
    total_unique_people := s.tracked_people.card }

/-- A Hailo detection as consumed by `app_callback`: its class label, its
confidence (a real value in `[0, 1]`, modelled as `ℚ`), and the list of
`HAILO_UNIQUE_ID` objects attached to it. -/
structure Detection where
  label : String
  confidence : ℚ
  uniqueIds : List ℕ

/-- Track-id extraction in `app_callback` (src/Vision/main.py lines
294-297): default `0`, replaced by the id when exactly one
`HAILO_UNIQUE_ID` object is attached. -/
def extractTrackId (d : Detection) : ℕ :=
  match d.uniqueIds with
  | [i] => i
  | _ => 0

/-- The per-detection body of the loop in `app_callback` (src/Vision/main.py
lines 278-312): non-person labels are skipped, person detections below
confidence 0.70 are skipped, otherwise the track id goes through
`add_person` and, when the person is new, a row is immediately appended to
the CSV. -/
def processDetection (t : ℕ) (st : CounterState × List CsvRow) (d : Detection) :
    CounterState × List CsvRow :=
  if d.label = "person" then
    if d.confidence < 7/10 then st
    else
      let tid := extractTrackId d
      let res := add_person st.1 tid
      if res.2 then
        (res.1, st.2 ++ [log_to_csv res.1 t res.1.current_minute_people.card])
      else (res.1, st.2)
  else st

/-- The period-boundary logic at the end of `app_callback`
(src/Vision/main.py lines 314-343) at epoch time `t`: when the minute
bucket changed, log one CSV row, clear the minute set and move
`current_minute`; then clear the hour set when the hour bucket changed and
the day set when the day bucket changed. -/
def boundaryPhase (s : CounterState) (t : ℕ) : CounterState × List CsvRow :=
  let afterMinute :=
    if t / 60 ≠ s.current_minute then
      ({ s with current_minute_people := ∅, current_minute := t / 60 },
       [log_to_csv s t s.current_minute_people.card])
    else (s, [])
  let s1 := afterMinute.1
  let s2 :=
    if t / 3600 ≠ s1.current_hour then
      { s1 with current_hour_people := ∅, current_hour := t / 3600 }
    else s1
  let s3 :=
    if t / 86400 ≠ s2.current_day then
      { s2 with current_day_people := ∅, current_day := t / 86400 }
    else s2
  (s3, afterMinute.2)

/-- `app_callback` (src/Vision/main.py lines 228-389) on the detections of
one frame at epoch time `t`, returning the new state and the CSV rows
appended during the call (frame annotation and console printing are not
modelled). -/
def app_callback (s : CounterState) (ds : List Detection) (t : ℕ) :
    CounterState × List CsvRow :=
  let detPhase := ds.foldl (processDetection t) (s, [])
  let bound := boundaryPhase detPhase.1 t
  (bound.1, detPhase.2 ++ bound.2)

/-- C2: when the observed epoch minute differs from the stored one, the
boundary logic appends exactly one CSV row whose `People_This_Minute`
column is the number of distinct track ids in the minute set (the ids
detected since the set was last cleared at the previous minute boundary),
then empties `current_minute_people` and stores the new minute bucket;
when the minute is unchanged it appends nothing and keeps the set; the
hour set is cleared exactly when the hour bucket changes and the day set
exactly when the day bucket changes. -/
theorem c2_minute_boundary_logging (s : CounterState) (t : ℕ) :
    (t / 60 ≠ s.current_minute →
      (boundaryPhase s t).2 = [log_to_csv s t s.current_minute_people.card] ∧
      (log_to_csv s t s.current_minute_people.card).people_this_minute =
        s.current_minute_people.card ∧
      (boundaryPhase s t).1.current_minute_people = ∅ ∧
      (boundaryPhase s t).1.current_minute = t / 60) ∧
    (t / 60 = s.current_minute →
      (boundaryPhase s t).2 = [] ∧
      (boundaryPhase s t).1.current_minute_people = s.current_minute_people) ∧
    (t / 3600 ≠ s.current_hour →
      (boundaryPhase s t).1.current_hour_people = ∅) ∧
    (t / 3600 = s.current_hour →
      (boundaryPhase s t).1.current_hour_people = s.current_hour_people) ∧
    (t / 86400 ≠ s.current_day →
      (boundaryPhase s t).1.current_day_people = ∅) ∧
    (t / 86400 = s.current_day →
      (boundaryPhase s t).1.current_day_people = s.current_day_people) := by
  by_cases hm : t / 60 = s.current_minute <;>
  by_cases hh : t / 3600 = s.current_hour <;>
  by_cases hd : t / 86400 = s.current_day <;>
    simp [boundaryPhase, log_to_csv, hm, hh, hd]

/-- Witness for C2 at a concrete state and time: at `t = 60` from
`init 0`, the boundary logic logs one row, clears the minute set and sets
the minute bucket to `1`. -/
theorem c2_minute_boundary_logging_witness :
    (boundaryPhase (init 0) 60).2 =
      [log_to_csv (init 0) 60 (init 0).current_minute_people.card] ∧
    (boundaryPhase (init 0) 60).1.current_minute_people = ∅ ∧
    (boundaryPhase (init 0) 60).1.current_minute = 1 := by
  have h := (c2_minute_boundary_logging (init 0) 60).1 (by decide)
  exact ⟨h.1, h.2.2.1, h.2.2.2⟩

/-- C7: in the detection loop, a detection with a non-person label or
confidence below 0.70 leaves the state and the CSV untouched, while a
person detection with confidence exactly 0.70 (and, more generally, at
least 0.70) is counted: its track id lands in the minute, hour and day
sets and in `tracked_people`. -/
theorem c7_confidence_threshold (st : CounterState × List CsvRow)
    (d : Detection) (t : ℕ) :
    ((d.label ≠ "person" ∨ d.confidence < 7/10) →
      processDetection t st d = st) ∧
    (d.label = "person" → 7/10 ≤ d.confidence →
      extractTrackId d ∈ (processDetection t st d).1.current_minute_people ∧
      extractTrackId d ∈ (processDetection t st d).1.current_hour_people ∧
      extractTrackId d ∈ (processDetection t st d).1.current_day_people ∧
      extractTrackId d ∈ (processDetection t st d).1.tracked_people) := by
  constructor
  · rintro (hl | hc)
    · simp [processDetection, hl]
    · simp [processDetection, hc]
  · intro hl hc
    have hnot : ¬ d.confidence < 7/10 := not_lt.mpr hc
    have hstate : (processDetection t st d).1 =
        (add_person st.1 (extractTrackId d)).1 := by
      by_cases hnew : (add_person st.1 (extractTrackId d)).2 <;>
        simp [processDetection, hl, hnot, hnew]
    rw [hstate]
    exact add_person_mem_sets st.1 (extractTrackId d)

/-- Witness for C7 at concrete inputs: a cat detection and a person at
confidence 0.55 are ignored, while a person at confidence exactly 0.70
with track id 5 is counted into the minute set. -/
theorem c7_confidence_threshold_witness :
    processDetection 0 (init 0, []) ⟨"cat", 9/10, [3]⟩ = (init 0, []) ∧
    processDetection 0 (init 0, []) ⟨"person", 55/100, [4]⟩ = (init 0, []) ∧
    extractTrackId ⟨"person", 7/10, [5]⟩ ∈
      (processDetection 0 (init 0, []) ⟨"person", 7/10, [5]⟩).1.current_minute_people := by
  refine ⟨?_, ?_, ?_⟩
  · exact (c7_confidence_threshold (init 0, []) ⟨"cat", 9/10, [3]⟩ 0).1
      (Or.inl (by decide))
  · exact (c7_confidence_threshold (init 0, []) ⟨"person", 55/100, [4]⟩ 0).1
      (Or.inr (by norm_num))
  · exact ((c7_confidence_threshold (init 0, []) ⟨"person", 7/10, [5]⟩ 0).2
      rfl le_rfl).1

/-- The subset chain invariant of C8: the minute set is contained in the
hour set, the hour set in the day set, and the day set in the lifetime
tracked set. -/
def Chain (s : CounterState) : Prop :=
  s.current_minute_people ⊆ s.current_hour_people ∧
  s.current_hour_people ⊆ s.current_day_people ∧
  s.current_day_people ⊆ s.tracked_people

/-- The stored period indices come from a single epoch instant: the hour
bucket is the minute bucket divided by 60 and the day bucket the hour
bucket divided by 24 (true of `init` and preserved by the callback). -/
def Consistent (s : CounterState) : Prop :=
  s.current_hour = s.current_minute / 60 ∧
  s.current_day = s.current_hour / 24

def Inv (s : CounterState) : Prop := Chain s ∧ Consistent s

theorem hour_bucket_eq (t : ℕ) : t / 3600 = t / 60 / 60 := by
  rw [Nat.div_div_eq_div_mul]

theorem day_bucket_eq (t : ℕ) : t / 86400 = t / 3600 / 24 := by
  rw [Nat.div_div_eq_div_mul]

theorem inv_init (t : ℕ) : Inv (init t) := by
  refine ⟨⟨?_, ?_, ?_⟩, ?_, ?_⟩ <;>
    simp [init, hour_bucket_eq t, day_bucket_eq t]

theorem inv_add_person (s : CounterState) (i : ℕ) (h : Inv s) :
    Inv ((add_person s i).1) := by
  obtain ⟨⟨h1, h2, h3⟩, hc⟩ := h
  have htr : ((add_person s i).1).tracked_people = insert i s.tracked_people :=
    add_person_tracked s i
  constructor
  · refine ⟨?_, ?_, ?_⟩
    · by_cases hm : i ∈ s.tracked_people <;>
        simpa [add_person, hm] using Finset.insert_subset_insert i h1
    · by_cases hm : i ∈ s.tracked_people <;>
        simpa [add_person, hm] using Finset.insert_subset_insert i h2
    · rw [htr]
      have hsub : insert i s.current_day_people ⊆ insert i s.tracked_people :=
        Finset.insert_subset_insert i h3
      by_cases hm : i ∈ s.tracked_people <;> simpa [add_person, hm] using hsub
  · by_cases hm : i ∈ s.tracked_people <;>
      simpa [add_person, hm, Consistent] using hc

theorem inv_processDetection (t : ℕ) (st : CounterState × List CsvRow)
    (d : Detection) (h : Inv st.1) : Inv (processDetection t st d).1 := by
  unfold processDetection
  split_ifs with hl hc
  · exact h
  · by_cases hnew : (add_person st.1 (extractTrackId d)).2 <;>
      simp only [hnew, if_true, if_false, Bool.false_eq_true, if_neg] <;>
      exact inv_add_person st.1 (extractTrackId d) h
  · exact h

theorem inv_detPhase (t : ℕ) (ds : List Detection)
    (st : CounterState × List CsvRow) (h : Inv st.1) :
    Inv (ds.foldl (processDetection t) st).1 := by
  induction ds generalizing st with
  | nil => exact h
  | cons d rest ih =>
    exact ih (processDetection t st d) (inv_processDetection t st d h)

theorem inv_boundaryPhase (s : CounterState) (t : ℕ) (h : Inv s) :
    Inv (boundaryPhase s t).1 := by
  obtain ⟨⟨h1, h2, h3⟩, hch, hcd⟩ := h
  by_cases hm : t / 60 = s.current_minute
  · have hh : t / 3600 = s.current_hour := by
      rw [hour_bucket_eq, hm, ← hch]
    have hd : t / 86400 = s.current_day := by
      rw [day_bucket_eq, hh, ← hcd]
    simp only [boundaryPhase, hm, hh, hd, ne_eq, not_true_eq_false, if_false,
      if_neg, not_not]
    exact ⟨⟨h1, h2, h3⟩, hch, hcd⟩
  · by_cases hh : t / 3600 = s.current_hour
    · have hd : t / 86400 = s.current_day := by
        rw [day_bucket_eq, hh, ← hcd]
      refine ⟨⟨?_, ?_, ?_⟩, ?_, ?_⟩ <;>
        simp [boundaryPhase, hm, hh, hd, h2, h3, Consistent, ← hour_bucket_eq, hch, hcd]
    · by_cases hd : t / 86400 = s.current_day
      · refine ⟨⟨?_, ?_, ?_⟩, ?_, ?_⟩ <;>
          simp [boundaryPhase, hm, hh, hd, h3, ← hour_bucket_eq, ← day_bucket_eq, hcd]
      · refine ⟨⟨?_, ?_, ?_⟩, ?_, ?_⟩ <;>
          simp [boundaryPhase, hm, hh, hd, ← hour_bucket_eq, ← day_bucket_eq]

/-- C8: the inclusion chain minute ⊆ hour ⊆ day ⊆ tracked (together with
the consistency of the stored period buckets, which makes every hour
boundary a minute boundary and every day boundary an hour boundary) holds
after every `app_callback` step, for any frame and any epoch time. -/
theorem c8_subset_chain_invariant (s : CounterState) (ds : List Detection)
    (t : ℕ) (h : Inv s) : Inv (app_callback s ds t).1 := by
  unfold app_callback
  exact inv_boundaryPhase _ t (inv_detPhase t ds (s, []) h)

/-- Witness for C8 at a concrete run: one person detection at `t = 3661`
starting from `init 0` (crossing a minute and an hour boundary at once)
keeps the invariant. -/
theorem c8_subset_chain_invariant_witness :
    Inv (app_callback (init 0) [⟨"person", 1, [7]⟩] 3661).1 :=
  c8_subset_chain_invariant (init 0) [⟨"person", 1, [7]⟩] 3661 (inv_init 0)

/-- Modelled from the spec: the spec says the deduplication/time-bucket
bookkeeping exists as four near-duplicate copies of the same file, but only
one copy (src/Vision/main.py) is under src.  The second copy's `add_person`
is modelled from the spec's words as the same bookkeeping, here with the
membership test phrased positively. -/
def add_person_copy2 (s : CounterState) (track_id : ℕ) : CounterState × Bool :=
  if track_id ∈ s.tracked_people then
    ({ s with current_minute_people := insert track_id s.current_minute_people
              current_hour_people := insert track_id s.current_hour_people
              current_day_people := insert track_id s.current_day_people }, false)
  else
    ({ s with people_count := s.people_count + 1
              tracked_people := insert track_id s.tracked_people
              current_minute_people := insert track_id s.current_minute_people
              current_hour_people := insert track_id s.current_hour_people
              current_day_people := insert track_id s.current_day_people }, true)

/-- Modelled from the spec: third of the four near-duplicate copies the
spec describes (absent from src), written with an unconditional insert into
the lifetime set and a conditional increment. -/
def add_person_copy3 (s : CounterState) (track_id : ℕ) : CounterState × Bool :=
  let bump := if track_id ∈ s.tracked_people then 0 else 1
  ({ s with people_count := s.people_count + bump
            tracked_people := insert track_id s.tracked_people
            current_minute_people := insert track_id s.current_minute_people
            current_hour_people := insert track_id s.current_hour_people
            current_day_people := insert track_id s.current_day_people },
   if track_id ∈ s.tracked_people then false else true)

/-- Modelled from the spec: fourth of the four near-duplicate copies the
spec describes (absent from src), written with the period-set inserts
performed before the lifetime check. -/
def add_person_copy4 (s : CounterState) (track_id : ℕ) : CounterState × Bool :=
  let s1 := { s with
      current_minute_people := insert track_id s.current_minute_people
      current_hour_people := insert track_id s.current_hour_people
      current_day_people := insert track_id s.current_day_people }
  if track_id ∉ s1.tracked_people then
    ({ s1 with tracked_people := insert track_id s1.tracked_people
               people_count := s1.people_count + 1 }, true)
  else (s1, false)

/-- State of the simplified dedup simulations in src/Vision/debug_csv.py
(lines 71-79) and src/Vision/test_csv_logging.py (lines 24-33). -/
structure DebugState where
  people_count : ℕ
  tracked_people : Finset ℕ
deriving DecidableEq

/-- One simulated detection of src/Vision/debug_csv.py lines 77-79:
`if track_id not in tracked_people: add; people_count += 1`. -/
def debugDetect (s : DebugState) (track_id : ℕ) : DebugState :=
  if track_id ∉ s.tracked_people then
    { people_count := s.people_count + 1
      tracked_people := insert track_id s.tracked_people }
  else s

/-- Run one of the `add_person` copies over a sequence of track ids. -/
def runWith (f : CounterState → ℕ → CounterState × Bool)
    (s : CounterState) (ids : List ℕ) : CounterState :=
  ids.foldl (fun s i => (f s i).1) s

theorem add_person_copy2_eq (s : CounterState) (i : ℕ) :
    add_person_copy2 s i = add_person s i := by
  by_cases h : i ∈ s.tracked_people <;>
    simp [add_person_copy2, add_person, h]

theorem add_person_copy3_eq (s : CounterState) (i : ℕ) :
    add_person_copy3 s i = add_person s i := by
  by_cases h : i ∈ s.tracked_people <;>
    simp [add_person_copy3, add_person, h, Finset.insert_eq_self]

theorem add_person_copy4_eq (s : CounterState) (i : ℕ) :
    add_person_copy4 s i = add_person s i := by
  by_cases h : i ∈ s.tracked_people <;>
    simp [add_person_copy4, add_person, h]

theorem debugDetect_agrees (ids : List ℕ) (d : DebugState) (s : CounterState)
    (hc : d.people_count = s.people_count)
    (ht : d.tracked_people = s.tracked_people) :
    (ids.foldl debugDetect d).people_count =
      (runWith add_person s ids).people_count := by
  induction ids generalizing d s with
  | nil => exact hc
  | cons i rest ih =>
    refine ih (debugDetect d i) (add_person s i).1 ?_ ?_ <;>
      by_cases h : i ∈ s.tracked_people <;>
        simp [debugDetect, add_person, ht, h, hc]

/-- C9: the four near-duplicate copies of the `add_person` bookkeeping are
behaviorally equivalent: run over any sequence of track ids from a fresh
state, every copy produces the same state, hence every pair of copies
produces the same counts; the simplified dedup loop of debug_csv.py /
test_csv_logging.py also yields the same lifetime count. -/
theorem c9_copies_equivalent (ids : List ℕ) (t : ℕ) :
    runWith add_person_copy2 (init t) ids = runWith add_person (init t) ids ∧
    runWith add_person_copy3 (init t) ids = runWith add_person (init t) ids ∧
    runWith add_person_copy4 (init t) ids = runWith add_person (init t) ids ∧
    (ids.foldl debugDetect ⟨0, ∅⟩).people_count =
      (runWith add_person (init t) ids).people_count := by
  refine ⟨?_, ?_, ?_, ?_⟩
  · unfold runWith
    rw [funext fun s => funext fun i =>
      congrArg Prod.fst (add_person_copy2_eq s i)]
  · unfold runWith
    rw [funext fun s => funext fun i =>
      congrArg Prod.fst (add_person_copy3_eq s i)]
  · unfold runWith
    rw [funext fun s => funext fun i =>
      congrArg Prod.fst (add_person_copy4_eq s i)]
  · exact debugDetect_agrees ids ⟨0, ∅⟩ (init t) rfl rfl

end PeopleCounter

namespace Dashboard

/-- One iteration of `timelapse_worker` (src/web_dashboard/app.py lines
79-100) acting on the `timelapse_frames` buffer: when a frame was captured
it is appended, and when the buffer then holds more than 300 frames the
frame at index 0 is popped; when capture failed the buffer is untouched. -/
def timelapse_step {α : Type} (frames : List α) (captured : Option α) :
    List α :=
  match captured with
  | none => frames
  | some f =>
    let fs := frames ++ [f]
    if 300 < fs.length then fs.tail else fs

theorem timelapse_step_none {α : Type} (frames : List α) :
    timelapse_step frames none = frames := rfl

theorem timelapse_step_some {α : Type} (frames : List α) (f : α) :
    timelapse_step frames (some f) =
      if 300 < (frames ++ [f]).length then (frames ++ [f]).tail
      else frames ++ [f] := rfl

theorem timelapse_step_bound {α : Type} (frames : List α) (c : Option α)
    (h : frames.length ≤ 300) : (timelapse_step frames c).length ≤ 300 := by
  cases c with
  | none => exact h
  | some f =>
    rw [timelapse_step_some]
    split_ifs with hlen
    · simp only [List.length_tail, List.length_append, List.length_singleton]
      omega
    · simp only [List.length_append, List.length_singleton] at hlen ⊢
      omega

/-- C10: the timelapse buffer is bounded: starting from the empty buffer,
after any sequence of worker iterations it holds at most 300 frames; one
iteration preserves the bound; and when the buffer is full (300 frames) an
append evicts exactly the oldest frame, the one at index 0. -/
theorem c10_timelapse_bounded (α : Type) (cs : List (Option α)) :
    (cs.foldl timelapse_step ([] : List α)).length ≤ 300 ∧
    (∀ (frames : List α) (c : Option α), frames.length ≤ 300 →
      (timelapse_step frames c).length ≤ 300) ∧
    (∀ (frames : List α) (f : α), frames.length = 300 →
      timelapse_step frames (some f) = frames.tail ++ [f]) := by
  refine ⟨?_, fun frames c h => timelapse_step_bound frames c h, ?_⟩
  · have hgen : ∀ (l : List (Option α)) (acc : List α), acc.length ≤ 300 →
        (l.foldl timelapse_step acc).length ≤ 300 := by
      intro l
      induction l with
      | nil => exact fun acc h => h
      | cons c rest ih =>
        exact fun acc h => ih (timelapse_step acc c) (timelapse_step_bound acc c h)
    exact hgen cs [] (by simp)
  · intro frames f h
    have hfull : 300 < (frames ++ [f]).length := by
      simp [h]
    rw [timelapse_step_some, if_pos hfull]
    cases frames with
    | nil => simp at h
    | cons a rest => simp

/-- Witness for C10 at a full concrete buffer: appending to 300 zeroes
evicts the head. -/
theorem c10_timelapse_bounded_witness :
    timelapse_step (List.replicate 300 (0 : ℕ)) (some 1) =
      (List.replicate 300 (0 : ℕ)).tail ++ [1] ∧
    (timelapse_step (List.replicate 300 (0 : ℕ)) (some 1)).length ≤ 300 := by
  have hlen : (List.replicate 300 (0 : ℕ)).length = 300 :=
    List.length_replicate 300 0
  have h1 := (c10_timelapse_bounded ℕ []).2.2 (List.replicate 300 (0 : ℕ)) 1
    hlen
  have h2 := (c10_timelapse_bounded ℕ []).2.1 (List.replicate 300 (0 : ℕ))
    (some 1) (le_of_eq hlen)
  exact ⟨h1, h2⟩

end Dashboard

namespace API

/-! Embedding of `src/API/api.py`.  Python string primitives used by
`load_csv_data` are modelled as structural functions on character lists:
`str.strip`, `str.startswith`, the `in` substring test, `str.split(sep, 1)[1]`
and `str.split(',')`, plus the single-line behaviour of `csv.reader` with
the default dialect (comma delimiter, double-quote quoting). -/

/-- The whitespace stripped by Python's `str.strip()`. -/
def isPySpace (c : Char) : Bool :=
  c = ' ' || c = '\t' || c = '\n' || c = '\r' || c = '\x0b' || c = '\x0c'

def stripList (l : List Char) : List Char :=
  ((l.dropWhile isPySpace).reverse.dropWhile isPySpace).reverse

/-- Python `line.strip()`. -/
def pyStrip (s : String) : String := String.mk (stripList s.toList)

/-- Python `s.startswith(pat)`. -/
def pyStartsWith (s pat : String) : Bool := pat.toList.isPrefixOf s.toList

def containsSubList (l pat : List Char) : Bool :=
  (List.range (l.length + 1)).any fun i => pat.isPrefixOf (l.drop i)

/-- Python `pat in s`. -/
def pyContains (s pat : String) : Bool := containsSubList s.toList pat.toList

def afterFirstList (l pat : List Char) : List Char :=
  match (List.range (l.length + 1)).find? (fun i => pat.isPrefixOf (l.drop i)) with
  | none => []
  | some i => l.drop (i + pat.length)

/-- Python `s.split(pat, 1)[1]`: everything after the first occurrence of
`pat` (only used on strings that contain `pat`). -/
def pyAfterFirst (s pat : String) : String :=
  String.mk (afterFirstList s.toList pat.toList)

def splitCommaList : List Char → List (List Char)
  | [] => [[]]
  | c :: rest =>
    match splitCommaList rest with
    | [] => [[c]]
    | cur :: others =>
      if c = ',' then [] :: cur :: others else (c :: cur) :: others

/-- Python `s.split(',')`: a plain comma split with no quote handling. -/
def pySplitComma (s : String) : List String :=
  (splitCommaList s.toList).map String.mk

/-- Parser state of the single-line `csv.reader` (default dialect). -/
inductive CsvMode
  | startField
  | inField
  | inQuoted
  | quoteInQuoted

/-- Field scanner of Python's `csv.reader` on one line: fields are split on
commas; a field opened by a double quote runs to its closing quote, with
`""` inside standing for a literal quote; characters after a closing quote
are carried into the field. -/
def csvSplitAux : CsvMode → List Char → List (List Char) → List Char → List (List Char)
  | _, cur, acc, [] => acc ++ [cur]
  | CsvMode.startField, cur, acc, c :: rest =>
    if c = '"' then csvSplitAux CsvMode.inQuoted cur acc rest
    else if c = ',' then csvSplitAux CsvMode.startField [] (acc ++ [cur]) rest
    else csvSplitAux CsvMode.inField (cur ++ [c]) acc rest
  | CsvMode.inField, cur, acc, c :: rest =>
    if c = ',' then csvSplitAux CsvMode.startField [] (acc ++ [cur]) rest
    else csvSplitAux CsvMode.inField (cur ++ [c]) acc rest
  | CsvMode.inQuoted, cur, acc, c :: rest =>
    if c = '"' then csvSplitAux CsvMode.quoteInQuoted cur acc rest
    else csvSplitAux CsvMode.inQuoted (cur ++ [c]) acc rest
  | CsvMode.quoteInQuoted, cur, acc, c :: rest =>
    if c = '"' then csvSplitAux CsvMode.inQuoted (cur ++ ['"']) acc rest
    else if c = ',' then csvSplitAux CsvMode.startField [] (acc ++ [cur]) rest
    else csvSplitAux CsvMode.inField (cur ++ [c]) acc rest

/-- `list(csv.reader([line]))[0]` for a nonempty line. -/
def csvSplit (line : String) : List String :=
  (csvSplitAux CsvMode.startField [] [] line.toList).map fun cs => String.mk cs

/-- The column-header text `load_csv_data` looks for inside a line. -/
def headerLine : String :=
  "Timestamp,Minute,Hour,Day,People_This_Minute,People_This_Hour,People_This_Day,Total_Unique_People"

/-- Loop state of `load_csv_data`: whether the header was found (the
`header` variable is non-`None` exactly when `header_found` is set) and the
accumulated data rows. -/
structure LoadState where
  headerFound : Bool
  data : List (List String)
deriving DecidableEq

/-- The recovery of a line that contains the header text (src/API/api.py
lines 69-80): the part after the first `Total_Unique_People` is split on
commas; when it is nonempty and yields at least 8 values, their first 8
become one data row. -/
def recoveredRows (line : String) : List (List String) :=
  let data_part := pyAfterFirst line "Total_Unique_People"
  if data_part ≠ "" then
    let values := pySplitComma data_part
    if 8 ≤ values.length then [values.take 8] else []
  else []

/-- One iteration of the line loop of `load_csv_data` (src/API/api.py lines
60-92): strip the line, skip blanks and comment lines, recover a line that
carries the header text, otherwise keep the first 8 fields of any line with
at least 8 CSV fields and drop shorter lines. -/
def processLine (st : LoadState) (rawLine : String) : LoadState :=
  let line := pyStrip rawLine
  if line = "" ∨ pyStartsWith line "#" = true ∨ pyStartsWith line "\"#" = true then
    st
  else if st.headerFound = false then
    if pyContains line headerLine = true then
      { headerFound := true, data := st.data ++ recoveredRows line }
    else
      let row := csvSplit line
      if 8 ≤ row.length then { headerFound := true, data := st.data ++ [row.take 8] }
      else st
  else
    let row := csvSplit line
    if 8 ≤ row.length then { st with data := st.data ++ [row.take 8] } else st

/-- `load_csv_data` (src/API/api.py lines 35-127) on the lines of the CSV
file: `none` models the empty `DataFrame` returned when no header or no
data row was found, `some` the frame built from the collected rows. -/
def load_csv_data (lines : List String) : Option (List (List String)) :=
  let st := lines.foldl processLine { headerFound := false, data := [] }
  if st.data = [] ∨ st.headerFound = false then none else some st.data

theorem recoveredRows_length (l : String) (r : List String)
    (hr : r ∈ recoveredRows l) : r.length = 8 := by
  simp only [recoveredRows] at hr
  split_ifs at hr with h1 h2
  · rcases List.mem_singleton.mp hr with rfl
    rw [List.length_take]
    exact Nat.min_eq_left h2
  · exact absurd hr (List.not_mem_nil r)
  · exact absurd hr (List.not_mem_nil r)

theorem processLine_row_length (st : LoadState) (l : String)
    (h : ∀ r ∈ st.data, r.length = 8) :
    ∀ r ∈ (processLine st l).data, r.length = 8 := by
  simp only [processLine]
  split_ifs with h1 h2 h3 h4 h5 <;> intro r hr
  · exact h r hr
  · rcases List.mem_append.mp hr with hl | hl
    · exact h r hl
    · exact recoveredRows_length _ r hl
  · rcases List.mem_append.mp hr with hl | hl
    · exact h r hl
    · rcases List.mem_singleton.mp hl with rfl
      rw [List.length_take]
      exact Nat.min_eq_left h4
  · exact h r hr
  · rcases List.mem_append.mp hr with hl | hl
    · exact h r hl
    · rcases List.mem_singleton.mp hl with rfl
      rw [List.length_take]
      exact Nat.min_eq_left h5
  · exact h r hr

theorem foldl_row_length (lines : List String) (st : LoadState)
    (h : ∀ r ∈ st.data, r.length = 8) :
    ∀ r ∈ (lines.foldl processLine st).data, r.length = 8 := by
  induction lines generalizing st with
  | nil => exact h
  | cons l rest ih => exact ih (processLine st l) (processLine_row_length st l h)

/-- C4: the reader keeps only 8-field records: (i) every record of a
successful `load_csv_data` has exactly 8 fields; (ii) a line that is blank
after stripping or starts with `#` or `"#` is skipped; (iii) before the
header is found, a line containing the literal header text is recovered by
splitting after `Total_Unique_People`, the trailing values becoming a data
row; (iv) any other line contributes the first 8 of its CSV fields when it
has at least 8 and is dropped otherwise; (v) the result is the empty frame
exactly when no data row or no header was found. -/
theorem c4_load_csv_data_shape :
    (∀ (lines : List String) (recs : List (List String)),
      load_csv_data lines = some recs → ∀ r ∈ recs, r.length = 8) ∧
    (∀ (st : LoadState) (l : String),
      (pyStrip l = "" ∨ pyStartsWith (pyStrip l) "#" = true ∨
        pyStartsWith (pyStrip l) "\"#" = true) →
      processLine st l = st) ∧
    (∀ (st : LoadState) (l : String),
      ¬(pyStrip l = "" ∨ pyStartsWith (pyStrip l) "#" = true ∨
        pyStartsWith (pyStrip l) "\"#" = true) →
      st.headerFound = false → pyContains (pyStrip l) headerLine = true →
      processLine st l =
        { headerFound := true, data := st.data ++ recoveredRows (pyStrip l) }) ∧
    (∀ (st : LoadState) (l : String),
      ¬(pyStrip l = "" ∨ pyStartsWith (pyStrip l) "#" = true ∨
        pyStartsWith (pyStrip l) "\"#" = true) →
      (st.headerFound = true ∨ pyContains (pyStrip l) headerLine = false) →
      (processLine st l).data =
        (if 8 ≤ (csvSplit (pyStrip l)).length then
          st.data ++ [(csvSplit (pyStrip l)).take 8] else st.data)) ∧
    (∀ lines : List String,
      load_csv_data lines = none ↔
        ((lines.foldl processLine ⟨false, []⟩).data = [] ∨
          (lines.foldl processLine ⟨false, []⟩).headerFound = false)) := by
  refine ⟨?_, ?_, ?_, ?_, ?_⟩
  · intro lines recs hload r hr
    simp only [load_csv_data] at hload
    split_ifs at hload with hcond
    · refine foldl_row_length lines ⟨false, []⟩ (by simp) r ?_
      rwa [Option.some_inj.mp hload]
  · intro st l hskip
    simp only [processLine]
    rw [if_pos hskip]
  · intro st l hskip hfound hcont
    simp only [processLine]
    rw [if_neg hskip, if_pos (by rw [hfound]), if_pos hcont]
  · intro st l hskip hside
    simp only [processLine]
    rw [if_neg hskip]
    rcases hside with hfound | hcont
    · rw [hfound]
      simp only [Bool.true_eq_false, if_false]
      split_ifs with hlen <;> simp
    · by_cases hfound : st.headerFound = false
      · rw [if_pos hfound, if_neg (by rw [hcont]; simp)]
        split_ifs with hlen <;> simp
      · rw [if_neg hfound]
        split_ifs with hlen <;> simp
  · intro lines
    simp only [load_csv_data]
    split_ifs with hcond
    · simpa using hcond
    · simpa using hcond

/-- Witness for C4 at concrete lines: a comment line is skipped, a
header-carrying line is recovered, a short line is dropped, and the records
of a one-line CSV all have 8 fields. -/
theorem c4_load_csv_data_shape_witness :
    processLine ⟨false, []⟩ "# Hailo AI People Counter Data" = ⟨false, []⟩ ∧
    processLine ⟨false, []⟩ (headerLine ++ "x,1,2,3,4,5,6,7,8") =
      ⟨true, [] ++ recoveredRows (pyStrip (headerLine ++ "x,1,2,3,4,5,6,7,8"))⟩ ∧
    (processLine ⟨true, []⟩ "a,b").data =
      (if 8 ≤ (csvSplit (pyStrip "a,b")).length then
        ([] : List (List String)) ++ [(csvSplit (pyStrip "a,b")).take 8] else []) ∧
    (∀ r ∈ [["a", "b", "c", "d", "e", "f", "g", "h"]], r.length = 8) := by
  refine ⟨?_, ?_, ?_, ?_⟩
  · exact c4_load_csv_data_shape.2.1 ⟨false, []⟩ "# Hailo AI People Counter Data"
      (Or.inr (Or.inl (by decide)))
  · exact c4_load_csv_data_shape.2.2.1 ⟨false, []⟩ (headerLine ++ "x,1,2,3,4,5,6,7,8")
      (by decide) rfl (by decide)
  · exact c4_load_csv_data_shape.2.2.2.1 ⟨true, []⟩ "a,b" (by decide) (Or.inl rfl)
  · exact c4_load_csv_data_shape.1 ["a,b,c,d,e,f,g,h"]
      [["a", "b", "c", "d", "e", "f", "g", "h"]] (by decide)

/-- A parsed CSV record as consumed by `get_summary`: the four numeric
count columns (the timestamp only feeds the date range, not the
statistics verified here). -/
structure DataRow where
  people_this_minute : ℕ
  people_this_hour : ℕ
  people_this_day : ℕ
  total_unique_people : ℕ
deriving DecidableEq

/-- `df[col].max()` over a column of naturals. -/
def maxOf (l : List ℕ) : ℕ := l.foldl max 0

/-- `float(df[col].mean())`: the column sum divided by the record count,
taken in `ℚ`. -/
def meanOf (l : List ℕ) : ℚ := (l.map (Nat.cast : ℕ → ℚ)).sum / l.length

/-- The JSON body built by `get_summary` (src/API/api.py lines 206-246). -/
structure Summary where
  total_records : ℕ
  max_people_this_minute : ℕ
  max_people_this_hour : ℕ
  max_people_this_day : ℕ
  max_total_unique_people : ℕ
  avg_people_this_minute : ℚ
  avg_people_this_hour : ℚ
  avg_people_this_day : ℚ
  cur_people_this_minute : ℕ
  cur_people_this_hour : ℕ
  cur_people_this_day : ℕ
  cur_total_unique_people : ℕ

/-- `GET /data/summary` (src/API/api.py lines 206-246): `none` models the
404 "No data available" answer on an empty frame; otherwise the summary
holds the four column maxima, the three column means, and as current
totals the four counts of the last record (`df.iloc[-1]`). -/
def get_summary (rows : List DataRow) : Option Summary :=
  match rows.getLast? with
  | none => none
  | some last =>
    some { total_records := rows.length
           max_people_this_minute := maxOf (rows.map (·.people_this_minute))
           max_people_this_hour := maxOf (rows.map (·.people_this_hour))
           max_people_this_day := maxOf (rows.map (·.people_this_day))
           max_total_unique_people := maxOf (rows.map (·.total_unique_people))
           avg_people_this_minute := meanOf (rows.map (·.people_this_minute))
           avg_people_this_hour := meanOf (rows.map (·.people_this_hour))
           avg_people_this_day := meanOf (rows.map (·.people_this_day))
           cur_people_this_minute := last.people_this_minute
           cur_people_this_hour := last.people_this_hour
           cur_people_this_day := last.people_this_day
           cur_total_unique_people := last.total_unique_people }

theorem le_foldl_max (l : List ℕ) : ∀ a : ℕ, a ≤ l.foldl max a := by
  induction l with
  | nil => exact fun a => le_refl a
  | cons x xs ih => exact fun a => le_trans (le_max_left a x) (ih (max a x))

theorem mem_le_foldl_max (l : List ℕ) :
    ∀ (a x : ℕ), x ∈ l → x ≤ l.foldl max a := by
  induction l with
  | nil => intro a x hx; exact absurd hx (List.not_mem_nil x)
  | cons y ys ih =>
    intro a x hx
    rcases List.mem_cons.mp hx with rfl | hmem
    · exact le_trans (le_max_right a x) (le_foldl_max ys (max a x))
    · exact ih (max a y) x hmem

theorem foldl_max_eq_or_mem (l : List ℕ) :
    ∀ a : ℕ, l.foldl max a = a ∨ l.foldl max a ∈ l := by
  induction l with
  | nil => intro a; exact Or.inl rfl
  | cons x xs ih =>
    intro a
    rw [List.foldl_cons]
    rcases ih (max a x) with h | h
    · rcases le_total x a with hle | hle
      · exact Or.inl (by rw [h]; exact max_eq_left hle)
      · refine Or.inr ?_
        rw [h, max_eq_right hle]
        exact List.mem_cons_self x xs
    · exact Or.inr (List.mem_cons_of_mem x h)

theorem maxOf_le (l : List ℕ) (x : ℕ) (hx : x ∈ l) : x ≤ maxOf l :=
  mem_le_foldl_max l 0 x hx

theorem maxOf_mem (l : List ℕ) (h : l ≠ []) : maxOf l ∈ l := by
  rcases foldl_max_eq_or_mem l 0 with h0 | hm
  · obtain ⟨x, xs, rfl⟩ := List.exists_cons_of_ne_nil h
    have hx : x ≤ maxOf (x :: xs) := maxOf_le _ x (List.mem_cons_self x xs)
    rw [maxOf, h0] at hx ⊢
    rw [Nat.le_zero.mp hx]
    exact List.mem_cons_self 0 xs
  · exact hm

theorem meanOf_mul_length (l : List ℕ) (h : l ≠ []) :
    meanOf l * l.length = (l.map (Nat.cast : ℕ → ℚ)).sum := by
  unfold meanOf
  rw [div_mul_cancel₀]
  exact Nat.cast_ne_zero.mpr (fun hz => h (List.length_eq_zero.mp hz))

/-- C6: on an empty record list `get_summary` answers with the 404 error;
on a nonempty one it returns a summary whose max fields are attained upper
bounds of the four count columns, whose avg fields times the record count
equal the column sums (i.e. they are the column means), and whose current
totals are the four counts of the last record. -/
theorem c6_summary_statistics (rows : List DataRow) :
    (rows = [] → get_summary rows = none) ∧
    (∀ last, rows.getLast? = some last →
      ∃ s, get_summary rows = some s ∧
        s.total_records = rows.length ∧
        (∀ r ∈ rows,
          r.people_this_minute ≤ s.max_people_this_minute ∧
          r.people_this_hour ≤ s.max_people_this_hour ∧
          r.people_this_day ≤ s.max_people_this_day ∧
          r.total_unique_people ≤ s.max_total_unique_people) ∧
        ((∃ r ∈ rows, r.people_this_minute = s.max_people_this_minute) ∧
         (∃ r ∈ rows, r.people_this_hour = s.max_people_this_hour) ∧
         (∃ r ∈ rows, r.people_this_day = s.max_people_this_day) ∧
         (∃ r ∈ rows, r.total_unique_people = s.max_total_unique_people)) ∧
        (s.avg_people_this_minute * rows.length =
           (rows.map fun r => (r.people_this_minute : ℚ)).sum ∧
         s.avg_people_this_hour * rows.length =
           (rows.map fun r => (r.people_this_hour : ℚ)).sum ∧
         s.avg_people_this_day * rows.length =
           (rows.map fun r => (r.people_this_day : ℚ)).sum) ∧
        (s.cur_people_this_minute = last.people_this_minute ∧
         s.cur_people_this_hour = last.people_this_hour ∧
         s.cur_people_this_day = last.people_this_day ∧
         s.cur_total_unique_people = last.total_unique_people)) := by
  constructor
  · rintro rfl
    rfl
  · intro last hlast
    have hne : rows ≠ [] := by
      rintro rfl
      simp at hlast
    have hmapne : ∀ f : DataRow → ℕ, rows.map f ≠ [] := by
      intro f hmap
      exact hne (List.map_eq_nil_iff.mp hmap)
    refine ⟨_, by rw [get_summary, hlast], rfl, ?_, ?_, ?_, rfl, rfl, rfl, rfl⟩
    · intro r hr
      exact ⟨maxOf_le _ _ (List.mem_map_of_mem _ hr),
        maxOf_le _ _ (List.mem_map_of_mem _ hr),
        maxOf_le _ _ (List.mem_map_of_mem _ hr),
        maxOf_le _ _ (List.mem_map_of_mem _ hr)⟩
    · refine ⟨?_, ?_, ?_, ?_⟩ <;>
      · obtain ⟨r, hr, hval⟩ := List.mem_map.mp (maxOf_mem _ (hmapne _))
        exact ⟨r, hr, hval⟩
    · have key : ∀ f : DataRow → ℕ,
          meanOf (rows.map f) * (rows.length : ℚ) =
            (rows.map fun r => ((f r : ℕ) : ℚ)).sum := by
        intro f
        have h1 := meanOf_mul_length (rows.map f) (hmapne f)
        rw [List.length_map, List.map_map] at h1
        exact h1
      exact ⟨key (fun r => r.people_this_minute),
        key (fun r => r.people_this_hour),
        key (fun r => r.people_this_day)⟩

/-- Witness for C6 at a concrete record list of two rows. -/
theorem c6_summary_statistics_witness :
    ∃ s, get_summary [⟨1, 2, 3, 4⟩, ⟨5, 6, 7, 8⟩] = some s ∧
      s.cur_total_unique_people = 8 ∧
      (∀ r ∈ [(⟨1, 2, 3, 4⟩ : DataRow), ⟨5, 6, 7, 8⟩],
        r.people_this_minute ≤ s.max_people_this_minute) := by
  obtain ⟨s, hs, _, hbnd, _, _, hcur⟩ :=
    (c6_summary_statistics [⟨1, 2, 3, 4⟩, ⟨5, 6, 7, 8⟩]).2 ⟨5, 6, 7, 8⟩ rfl
  exact ⟨s, hs, hcur.2.2.2, fun r hr => (hbnd r hr).1⟩

end API
